import Mathlib

/-!
Verification development for the Bermoid request-dispatch core.

The definitions below are a shallow embedding of the Python sources:
  * `core/converter.py`    — path-pattern compiler and matcher
  * `core/application.py`  — dispatcher (`Bermoid.handle_request`,
    `_process_response`, `_error_validator`, `_process_exception`,
    `_convert_value`, `_lifespan`, `_startup_handlers`)
  * `core/asgi/middleware.py` — `ASGIMiddlewareLoader.build_middleware_stack`
  * `exceptions/http/base.py` — `HTTPException.__init__`

Machine strings are Lean `String`, regular-expression matching is embedded
as an executable matcher over the token lists the compiler produces, and
Python exceptions are explicit `Except` values.
-/

namespace Bermoid

/-! ## Small string utilities (Python `str` behaviour used by the code) -/

/-- Uppercase one ASCII character, as Python `str.upper` does on ASCII. -/
def upChar (c : Char) : Char :=
  if 'a' ≤ c ∧ c ≤ 'z' then Char.ofNat (c.toNat - 32) else c

/-- Python `str.upper`, restricted to ASCII content. -/
def pyUpper (s : String) : String :=
  String.mk (s.data.map upChar)

/-- Python `str.isdigit` on ASCII strings: nonempty and all digits. -/
def pyIsDigit (s : String) : Bool :=
  !s.data.isEmpty && s.data.all Char.isDigit

/-- Numeric value of a digit string. -/
def digitsVal (cs : List Char) : Nat :=
  cs.foldl (fun acc c => acc * 10 + (c.toNat - '0'.toNat)) 0

/-- Does the character list `pre` occur at the start of `cs`? -/
def leadsWith : List Char → List Char → Bool
  | [], _ => true
  | _ :: _, [] => false
  | p :: ps, c :: cs => p = c && leadsWith ps cs

/-- Acceptance test for Python `float(s)`: optional surrounding spaces,
optional sign, then digits with an optional single dot (ending in a digit
run on at least one side), with an optional exponent.  `inf`/`nan` forms
are not produced by path captures and are omitted. -/
def pyFloatOk (s : String) : Bool :=
  let cs := s.data.dropWhile (· = ' ')
  let cs := (cs.reverse.dropWhile (· = ' ')).reverse
  let cs := match cs with
    | '+' :: rest => rest
    | '-' :: rest => rest
    | rest => rest
  let mantissa : List Char → Bool := fun m =>
    let intPart := m.takeWhile Char.isDigit
    let rest := m.drop intPart.length
    match rest with
    | [] => !intPart.isEmpty
    | '.' :: frac => !(intPart.isEmpty && frac.isEmpty) && frac.all Char.isDigit
    | _ => false
  let expPart : List Char → Bool := fun e =>
    match e with
    | [] => true
    | 'e' :: rest | 'E' :: rest =>
      let rest := match rest with
        | '+' :: r => r
        | '-' :: r => r
        | r => r
      !rest.isEmpty && rest.all Char.isDigit
    | _ => false
  let mlen := (cs.takeWhile (fun c => Char.isDigit c || c = '.')).length
  mantissa (cs.take mlen) && expPart (cs.drop mlen)

/-! ## `Bermoid._convert_value` (core/application.py:453)

Captured regex group values are always strings, so the
`isinstance(value, int)` branch of the source never fires for path
parameters; the string branch is the behaviour embedded here. -/

/-- A Python value as produced by `_convert_value`. -/
inductive PyVal where
  | vint (n : Int)
  | vfloat (raw : String)
  | vstr (s : String)
deriving DecidableEq, Repr

/-- `Bermoid._convert_value` on a captured string: digit strings become
ints, float-parsable strings become floats, anything else stays text. -/
def convertValue (s : String) : PyVal :=
  if pyIsDigit s then .vint (Int.ofNat (digitsVal s.data))
  else if pyFloatOk s then .vfloat s
  else .vstr s

/-! ## Pattern compiler (core/converter.py) -/

/-- The regular-expression classes of `Converter._default_converters`,
plus the raw-expression fallback of `_get_converter`. -/
inductive RegexKind where
  | rstr      -- "str":  `[^/]+`
  | rint      -- "int":  `\d+`
  | rfloat    -- "float": `[0-9]*\.?[0-9]+`
  | rpath     -- "path": `.*?`
  | ruuid     -- "uuid": 8-4-4-4-12 hex digits
  | custom (rx : String)  -- unknown tag used as a literal expression
deriving DecidableEq, Repr

/-- A token of the compiled pattern: a literal character, the `.` and `c?`
metacharacter forms the compiler itself can emit (`/?` from relaxed
slashes), or a named capturing group. -/
inductive RTok where
  | exact (c : Char)
  | anyChar
  | optChar (c : Char)
  | group (name : String) (kind : RegexKind)
deriving DecidableEq, Repr

/-- First character of a placeholder name: `[a-zA-Z_]`. -/
def identStart (c : Char) : Bool := c.isAlpha || c = '_'

/-- Later characters of a placeholder name: `[a-zA-Z0-9_]`. -/
def identChar (c : Char) : Bool := c.isAlphanum || c = '_'

/-- `Converter._get_converter`: `None` means `str`; known tags map to the
default table; an unknown tag is taken as a raw expression. No custom
converters are registered in the embedded configuration. -/
def getConverter : Option String → RegexKind
  | none => .rstr
  | some "str" => .rstr
  | some "int" => .rint
  | some "float" => .rfloat
  | some "path" => .rpath
  | some "uuid" => .ruuid
  | some other => .custom other

/-- Try to read `name\x7d` or `name:type\x7d` right after an opening brace,
following `Converter._param_pattern`
(`\x7b([a-zA-Z_][a-zA-Z0-9_]*)(?::([^\x7d]+))?\x7d`).
Returns the name, the optional type expression and the remaining input. -/
def readPlaceholder (cs : List Char) : Option (String × Option String × List Char) :=
  match cs with
  | [] => none
  | c :: rest =>
    if identStart c then
      let tailChars := rest.takeWhile identChar
      let rest2 := rest.drop tailChars.length
      let name := String.mk (c :: tailChars)
      match rest2 with
      | '\x7d' :: rest3 => some (name, none, rest3)
      | ':' :: rest3 =>
        let ty := rest3.takeWhile (· ≠ '\x7d')
        let rest4 := rest3.drop ty.length
        match rest4 with
        | '\x7d' :: rest5 =>
          if ty.isEmpty then none else some (name, some (String.mk ty), rest5)
        | _ => none
      | _ => none
    else none

/-- Scan the normalized template, replacing each placeholder with a
capturing group and passing other characters through; a `?` after a
literal character and a bare `.` keep their regex meaning, which is
exactly what the compiler relies on for the optional trailing slash. -/
def scanTemplate : Nat → List Char → List RTok
  | 0, _ => []
  | _, [] => []
  | fuel + 1, '\x7b' :: rest =>
    match readPlaceholder rest with
    | some (name, ty, rest2) => .group name (getConverter ty) :: scanTemplate fuel rest2
    | none => .exact '\x7b' :: scanTemplate fuel rest
  | fuel + 1, '.' :: rest => .anyChar :: scanTemplate fuel rest
  | fuel + 1, c :: '?' :: rest => .optChar c :: scanTemplate fuel rest
  | fuel + 1, c :: rest => .exact c :: scanTemplate fuel rest

/-- Compilation failure, mirroring `ConverterError`. -/
inductive ConvErr where
  | badPath (msg : String)
deriving DecidableEq, Repr

/-- `Converter._validate_path`: must start with `/`, no `//`. -/
def validatePath (cs : List Char) : Bool :=
  (match cs with | '/' :: _ => true | _ => false)
  && !(cs.zip cs.tail).any (fun p => p.1 = '/' && p.2 = '/')

/-- `Converter._normalize_path`: with relaxed slashes and no trailing
slash, append `/?` to the template. -/
def normalizePath (cs : List Char) (strictSlashes : Bool) : List Char :=
  if !strictSlashes && cs.getLast? ≠ some '/' then cs ++ ['/', '?'] else cs

/-- `Converter._compile_pattern` (without the cache): validate, normalize,
substitute placeholders.  The anchors `^`/`$` are implicit in the matcher,
which always consumes the whole input. -/
def compilePattern (path : String) (strictSlashes : Bool) : Except ConvErr (List RTok) :=
  if !validatePath path.data then
    .error (.badPath "Path must start with a slash and contain no double slash")
  else
    let n := normalizePath path.data strictSlashes
    .ok (scanTemplate (n.length + 1) n)

/-! ### The matcher

`re.Pattern.match` with `^…$` anchoring, embedded as a backtracking
matcher over the token list.  Greedy one-or-more classes try the longest
run first; the lazy `.*?` of the `path` class tries the shortest first.
A fuel argument bounds the recursion; `matchFuel` is always sufficient. -/

/-- Character classes of the one-or-more converters. -/
def kindClass : RegexKind → Char → Bool
  | .rint => Char.isDigit
  | _ => (· ≠ '/')

/-- Full-string membership in `[0-9]*\.?[0-9]+`. -/
def floatShape (cs : List Char) : Bool :=
  let intPart := cs.takeWhile Char.isDigit
  let rest := cs.drop intPart.length
  match rest with
  | [] => !intPart.isEmpty
  | '.' :: frac => !frac.isEmpty && frac.all Char.isDigit
  | _ => false

/-- Is `c` an ASCII hex digit (`[0-9a-fA-F]`)? -/
def isHex (c : Char) : Bool :=
  Char.isDigit c || ('a' ≤ c && c ≤ 'f') || ('A' ≤ c && c ≤ 'F')

/-- Full-string membership in the uuid expression (8-4-4-4-12 hex). -/
def uuidShape (cs : List Char) : Bool :=
  let seg : List Char → Nat → Bool := fun l n => l.length = n && l.all isHex
  match cs.splitOn '-' with
  | [a, b, c, d, e] => seg a 8 && seg b 4 && seg c 4 && seg d 4 && seg e 12
  | _ => false

/-- Full-string membership test for a group of the given kind, used to
accept or reject one candidate capture. -/
def kindAccepts : RegexKind → List Char → Bool
  | .rint, cs => !cs.isEmpty && cs.all Char.isDigit
  | .rstr, cs => !cs.isEmpty && cs.all (· ≠ '/')
  | .rfloat, cs => floatShape cs
  | .rpath, cs => !cs.any (· = '\n')
  | .ruuid, cs => uuidShape cs
  | .custom rx, cs => cs = rx.data

/-- Candidate captures for a group, as (capture, remaining input) pairs in
the order the backtracking regex engine attempts them: greedy classes try
the longest run first, the lazy `.*?` of `path` tries the shortest first,
and the fixed-shape kinds admit one candidate. -/
def candidateSplits (kind : RegexKind) (cs : List Char) : List (List Char × List Char) :=
  match kind with
  | .rpath =>
    ((List.range (cs.length + 1)).map (fun l => (cs.take l, cs.drop l))).filter
      (fun p => kindAccepts .rpath p.1)
  | .ruuid =>
    let cand := cs.take 36
    if uuidShape cand then [(cand, cs.drop 36)] else []
  | .custom rx =>
    if leadsWith rx.data cs then [(rx.data, cs.drop rx.length)] else []
  | k =>
    let maxLen :=
      match k with
      | .rfloat => (cs.takeWhile (fun c => Char.isDigit c || c = '.')).length
      | _ => (cs.takeWhile (kindClass k)).length
    (((List.range (maxLen + 1)).reverse).map (fun l => (cs.take l, cs.drop l))).filter
      (fun p => kindAccepts k p.1)

/-- Match the token list against the whole remaining input, returning the
captured groups in order.  A group tries its candidates in backtracking
order and commits to the first one after which the rest of the pattern
matches. -/
def matchToks : List RTok → List Char → Option (List (String × String))
  | [], [] => some []
  | [], _ :: _ => none
  | .exact c :: ts, cs =>
    match cs with
    | [] => none
    | d :: cs2 => if d = c then matchToks ts cs2 else none
  | .anyChar :: ts, cs =>
    match cs with
    | [] => none
    | d :: cs2 => if d = '\n' then none else matchToks ts cs2
  | .optChar c :: ts, cs =>
    (match cs with
     | d :: cs2 =>
       if d = c then
         match matchToks ts cs2 with
         | some ps => some ps
         | none => matchToks ts cs
       else matchToks ts cs
     | [] => matchToks ts [])
  | .group name kind :: ts, cs =>
    (candidateSplits kind cs).findSome? fun p =>
      match matchToks ts p.2 with
      | some ps => some ((name, String.mk p.1) :: ps)
      | none => none

/-- Anchored match of a compiled pattern against a path, as
`path_regex.match(path)` with the `^…$` pattern the compiler emits;
returns `groupdict()` as an association list in group order. -/
def matchPattern (ts : List RTok) (path : String) : Option (List (String × String)) :=
  matchToks ts path.data

/-! ## Well-formedness test for `xml.etree.ElementTree.fromstring`

`_process_response` decides between `application/xml` and `text/html` by
attempting an XML parse of strings that start with `<`.  The checker below
accepts element documents (nested tags, attributes, text); character and
entity references are not modelled and inputs containing `&` are treated
as not well-formed. -/

/-- XML whitespace. -/
def xmlWs (c : Char) : Bool := c = ' ' || c = '\n' || c = '\t' || c = '\r'

/-- First character of an XML name. -/
def xmlNameStart (c : Char) : Bool := c.isAlpha || c = '_' || c = ':'

/-- Later characters of an XML name. -/
def xmlNameChar (c : Char) : Bool :=
  c.isAlphanum || c = '_' || c = '-' || c = '.' || c = ':'

/-- Read an XML name; returns it with the remaining input. -/
def xmlReadName (cs : List Char) : Option (List Char × List Char) :=
  match cs with
  | c :: rest =>
    if xmlNameStart c then
      let tl := rest.takeWhile xmlNameChar
      some (c :: tl, rest.drop tl.length)
    else none
  | [] => none

/-- Read zero or more attributes (`name="value"` or `name='value'`),
stopping before `>` or `/>`; returns the remaining input. -/
def xmlReadAttrs : Nat → List Char → Option (List Char)
  | 0, _ => none
  | fuel + 1, cs =>
    let cs := cs.dropWhile xmlWs
    match cs with
    | '>' :: _ => some cs
    | '/' :: '>' :: _ => some cs
    | _ =>
      match xmlReadName cs with
      | none => none
      | some (_, r1) =>
        let r1 := r1.dropWhile xmlWs
        match r1 with
        | '=' :: r2 =>
          let r2 := r2.dropWhile xmlWs
          match r2 with
          | q :: r3 =>
            if q = '"' || q = '\x27' then
              let v := r3.takeWhile (fun c => c ≠ q && c ≠ '<' && c ≠ '&')
              match r3.drop v.length with
              | q2 :: r4 => if q2 = q then xmlReadAttrs fuel r4 else none
              | [] => none
            else none
          | [] => none
        | _ => none

mutual

/-- Parse one element starting at `<`; returns the input after its close. -/
def xmlElement : Nat → List Char → Option (List Char)
  | 0, _ => none
  | fuel + 1, cs =>
    match cs with
    | '<' :: r0 =>
      match xmlReadName r0 with
      | none => none
      | some (name, r1) =>
        match xmlReadAttrs (r1.length + 1) r1 with
        | none => none
        | some r2 =>
          match r2 with
          | '/' :: '>' :: r3 => some r3
          | '>' :: r3 =>
            match xmlContent fuel r3 with
            | none => none
            | some r4 =>
              match r4 with
              | '<' :: '/' :: r5 =>
                match xmlReadName r5 with
                | none => none
                | some (name2, r6) =>
                  match r6.dropWhile xmlWs with
                  | '>' :: r7 => if name2 = name then some r7 else none
                  | _ => none
              | _ => none
          | _ => none
    | _ => none

/-- Parse element content (text and child elements) up to the closing-tag
marker `</`, which is left in the input. -/
def xmlContent : Nat → List Char → Option (List Char)
  | 0, _ => none
  | fuel + 1, cs =>
    let cs := cs.dropWhile (fun c => c ≠ '<' && c ≠ '&')
    match cs with
    | '<' :: '/' :: _ => some cs
    | '<' :: _ =>
      match xmlElement fuel cs with
      | none => none
      | some r => xmlContent fuel r
    | _ => none

end

/-- Does `ET.fromstring` accept the string (in the modelled fragment)?
A document is optional whitespace, one root element, optional whitespace. -/
def xmlWf (s : String) : Bool :=
  let cs := s.data.dropWhile xmlWs
  match xmlElement (cs.length + 1) cs with
  | some rest => (rest.dropWhile xmlWs).isEmpty
  | none => false

/-! ## `json.dumps`, modelled for the shapes `_process_response` emits
(string keys and values; escaping is not modelled). -/

/-- Quote a JSON string. -/
def jsonQuote (s : String) : String := "\"" ++ s ++ "\""

/-- `json.dumps` of a string-to-string dict. -/
def jsonDumpsObj (d : List (String × String)) : String :=
  "\x7b" ++ String.intercalate ", " (d.map fun kv => jsonQuote kv.1 ++ ": " ++ jsonQuote kv.2) ++ "\x7d"

/-- `json.dumps` of a list of strings. -/
def jsonDumpsList (l : List String) : String :=
  "[" ++ String.intercalate ", " (l.map jsonQuote) ++ "]"

/-! ## Responses and exceptions -/

/-- The `Response` wrapper (wrappers/response.py): defaults are status
200 and `text/plain`; `compress`/streaming are orthogonal to dispatch and
omitted. -/
structure Resp where
  content : Option String := none
  status_code : Nat := 200
  headers : List (String × String) := []
  content_type : String := "text/plain"
deriving DecidableEq, Repr

/-- A raised Python exception, as `_process_exception` discriminates them:
`dictExc c` is an exception whose exact class is registered in
`exception_dict` under status `c`; everything else carries its kind and
message. -/
inductive PyExc where
  | dictExc (status : Nat)
  | otherExc (kind : String) (msg : String)
deriving DecidableEq, Repr

/-! ## `Bermoid._process_response` (core/application.py:465) -/

/-- An element of a list-shaped handler return: a string (or bytes), or a
non-string object with its `json.dumps` serialization (`none` when the
object is not serializable, in which case `json.dumps` raises). -/
inductive LItem where
  | istr (s : String)
  | obj (jsonRepr : Option String)
deriving DecidableEq, Repr

/-- A handler return value, by the `isinstance` shape checks of
`_process_response`: a string, a dict, a `(body, int)` tuple with a
string, dict or list body, any other 2-tuple with an int second component,
a list, a prebuilt `Response`, or anything else (with its type name). -/
inductive HandlerResult where
  | hstr (s : String)
  | hdict (d : List (String × String))
  | htupleStr (s : String) (code : Nat)
  | htupleDict (d : List (String × String)) (code : Nat)
  | htupleList (items : List LItem) (code : Nat)
  | htupleOther (code : Nat)
  | hlist (items : List LItem)
  | hresp (r : Resp)
  | hother (tyName : String)
deriving DecidableEq, Repr

/-- What flows onward as `response`: a `Response` object, an awaitable
that is not a `Response` (these pass the post-middleware `isinstance`
guard, which accepts `(Response, Awaitable)`), or any other non-response
value (a tuple whose body had no matching shape, a custom handler's
unvalidated return, ...). -/
inductive PROut where
  | resp (r : Resp)
  | awaitable (desc : String)
  | raw (desc : String)
deriving DecidableEq, Repr

/-- Is this a `Response` object? -/
def isRespOut : PROut → Bool
  | .resp _ => true
  | _ => false

/-- Is this an awaitable non-`Response`? -/
def isAwaitableOut : PROut → Bool
  | .awaitable _ => true
  | _ => false

/-- Does the string start with an opening angle bracket
(`response.startswith("<")`)? -/
def looksLikeMarkup (s : String) : Bool :=
  match s.data with
  | '<' :: _ => true
  | _ => false

/-- String body classification shared by the bare-string and
`(str, status)` branches: markup-looking strings are parsed as XML and
typed `application/xml` on success, `text/html` on parse failure;
others are `text/plain`. -/
def classifyStr (s : String) : String :=
  if looksLikeMarkup s then
    (if xmlWf s then "application/xml" else "text/html")
  else "text/plain"

/-- `handle_nested` plus the all-strings check of the list branches:
serialize each non-string item with `json.dumps` (raising if one is not
serializable); the processed list is then all strings, so the
`InternalServerError` fallback of the source is unreachable. -/
def processList (items : List LItem) (code : Nat) : Except PyExc PROut :=
  if items.any (fun i => match i with | .obj none => true | _ => false) then
    .error (.otherExc "TypeError" "Object is not JSON serializable")
  else
    let strs := items.map fun i =>
      match i with
      | .istr s => s
      | .obj (some j) => j
      | .obj none => ""
    .ok (.resp { content := some (jsonDumpsList strs), status_code := code,
                 content_type := "application/json" })

/-- `Bermoid._process_response`: normalize a handler return value. -/
def processResponse (response : HandlerResult) (callerName : String) : Except PyExc PROut :=
  match response with
  | .hstr s =>
    .ok (.resp { content := some s, content_type := classifyStr s })
  | .hdict d =>
    .ok (.resp { content := some (jsonDumpsObj d), content_type := "application/json" })
  | .htupleStr s code =>
    .ok (.resp { content := some s, status_code := code, content_type := classifyStr s })
  | .htupleDict d code =>
    .ok (.resp { content := some (jsonDumpsObj d), status_code := code,
                 content_type := "application/json" })
  | .htupleList items code => processList items code
  | .htupleOther _ =>
    -- a 2-tuple whose body is not str/dict/list leaves `response` unchanged
    .ok (.raw "tuple")
  | .hlist items => processList items 200
  | .hresp r => .ok (.resp r)
  | .hother tyName =>
    .error (.otherExc "TypeError"
      ("Function " ++ callerName ++ ": Invalid response type: Received " ++ tyName ++
       ". Expected types are str, dict, Response."))

/-! ## The route table and the matching loop of `Bermoid.handle_request`
(core/application.py:316-384) -/

/-- One entry of `Bermoid.routes` as built by `_process_routes`: the
compiled pattern text, the allowed methods, the handler (identified by a
number), the compiled matcher, and whether a response model is attached. -/
structure RouteC where
  pattern : String
  methods : List String
  handlerId : Nat
  matcher : String → Option (List (String × String))
  hasRespModel : Bool := false

/-- The method test of the loop:
`if not methods or method.upper() in map(str.upper, methods)`. -/
def methodAllowed (methods : List String) (method : String) : Bool :=
  methods.isEmpty || methods.any (fun m => pyUpper m = pyUpper method)

/-- Does this route fully match the request (pattern and method)? -/
def fullMatchB (r : RouteC) (path method : String) : Bool :=
  (r.matcher path).isSome && methodAllowed r.methods method

/-- Result of the scan: the first fully matching route with its raw
captures, or the accumulated allowed-methods of path-only matches. -/
inductive ScanOut where
  | matched (r : RouteC) (params : List (String × String))
  | unmatched (allowed : List String)

/-- The `for` loop of `handle_request`: first full match wins; a path
match with a rejected method adds that route's methods to the allowed
accumulator and the scan continues. -/
def scanRoutes : List RouteC → String → String → List String → ScanOut
  | [], _, _, allowed => .unmatched allowed
  | r :: rest, path, method, allowed =>
    match r.matcher path with
    | some params =>
      if methodAllowed r.methods method then .matched r params
      else scanRoutes rest path method (allowed ++ r.methods)
    | none => scanRoutes rest path method allowed

/-- The dispatch outcome of the matching section of `handle_request`:
a matched route with typed parameters, a 405 with the accumulated allowed
set, a 404, or the welcome page shown when the route table is empty. -/
inductive Outcome where
  | matched (r : RouteC) (params : List (String × PyVal))
  | methodNotAllowed (allowed : List String)
  | notFound
  | welcome

/-- Lines 316-384 of `handle_request` at outcome granularity: with no
registered routes the welcome response is used; otherwise the first full
match wins and its captures are typed by `_convert_value`; with no full
match the outcome is 405 when some route matched the path, else 404. -/
def dispatchOutcome (routes : List RouteC) (path method : String) : Outcome :=
  if routes.isEmpty then .welcome
  else
    match scanRoutes routes path method [] with
    | .matched r params => .matched r (params.map fun p => (p.1, convertValue p.2))
    | .unmatched allowed =>
      if allowed.isEmpty then .notFound else .methodNotAllowed allowed

/-- Projection used to state concrete dispatch facts: the matched
handler and its typed parameters, if any. -/
def outcomeParams : Outcome → Option (Nat × List (String × PyVal))
  | .matched r params => some (r.handlerId, params)
  | _ => none

/-- Is the outcome the 404 branch? -/
def isNotFound : Outcome → Bool
  | .notFound => true
  | _ => false

/-- Is the outcome the welcome page? -/
def isWelcome : Outcome → Bool
  | .welcome => true
  | _ => false

/-! ## Error rendering and the centralized exception handler
(core/application.py:405-451, 516-544)

`core/http_exceptions.py` is not part of the sources; `exception_dict`
is therefore modelled from the spec. -/

/-- The status codes of the built-in taxonomy, from the classes declared
in exceptions/http/core.py. -/
def exceptionDictCodes : List Nat :=
  [400, 401, 402, 403, 404, 405, 406, 407, 408, 409, 410, 411, 412, 413,
   414, 415, 416, 417, 418, 421, 422, 423, 424, 426, 428, 429, 431, 451,
   500, 501, 502, 503, 504, 505, 506, 507, 508, 510, 511]

/-- Modelled from the spec: `exception_dict[code]()` (core/http_exceptions
is missing from the sources) — the built-in status-code taxonomy of the
Exception Mapper, which "always produces a response", rendered as a
response carrying that status. -/
def exceptionDictResponse (code : Nat) : Resp :=
  { content := some ("Error " ++ toString code), status_code := code,
    content_type := "text/html" }

/-- A custom error-handler return value: the shapes `_error_validator`
accepts (str, dict, `Response`) or anything else. -/
inductive EHRes where
  | ehStr (s : String)
  | ehDict (d : List (String × String))
  | ehResp (r : Resp)
  | ehOther
deriving DecidableEq, Repr

/-- The application state and collaborator oracles that `handle_request`
and `_process_exception` consult.  Stage handlers, transformers, the
handler itself and the middlewares are per-request effects whose outcomes
(a value or a raised exception) are supplied as `Except` values. -/
structure AppCfg where
  routes : List RouteC
  debug : Bool := false
  /-- `self.error_handlers[code]`, with the outcome of awaiting it. -/
  errorHandlers : Nat → Option (Except PyExc EHRes) := fun _ => none
  /-- `self.exception_handlers` (the configured custom handler), with the
  outcome of awaiting it.  `_process_exception` (application.py:430)
  returns its value with no type validation, so a successful outcome may
  be any object — a `Response`, an awaitable, or anything else. -/
  customExcHandler : Option (PyExc → Except PyExc PROut) := none
  /-- `handle_exception` (exceptions/http/handler.py is missing from the
  sources); modelled from the spec as the debug-mode renderer, which may
  itself fail. -/
  debugExcHandler : PyExc → Except PyExc Resp := fun _ => .ok {}
  /-- outcome of the BEFORE request-stage handlers. -/
  beforeStage : Except PyExc Unit := .ok ()
  /-- outcome of the request transformers. -/
  reqTransformers : Except PyExc Unit := .ok ()
  /-- outcome of invoking the matched handler with its arguments. -/
  runHandler : RouteC → List (String × PyVal) → Except PyExc HandlerResult :=
    fun _ _ => .ok (.hstr "")
  /-- `_validate_and_serialize_response`, when a response model is set. -/
  respModelValidate : PROut → Except PyExc PROut := fun p => .ok p
  /-- outcome of the response transformers. -/
  respTransformers : PROut → Except PyExc PROut := fun p => .ok p
  /-- outcome of `apply_middlewares`. -/
  middlewares : PROut → Except PyExc PROut := fun p => .ok p
  /-- outcome of the AFTER request-stage handlers. -/
  afterStage : Except PyExc Unit := .ok ()

/-- `Bermoid._error_validator`: a registered custom handler is tried first
and its str/dict/Response result rendered with the error status (anything
else raises `HTTPException`); otherwise the built-in taxonomy renders the
status; an unknown status raises `TypeError`. -/
def errorValidator (app : AppCfg) (code : Nat) : Except PyExc Resp :=
  match app.errorHandlers code with
  | some result => do
    let r ← result
    match r with
    | .ehStr s => .ok { content := some s, status_code := code, content_type := "text/plain" }
    | .ehDict d => .ok { content := some (jsonDumpsObj d), status_code := code,
                         content_type := "application/json" }
    | .ehResp resp => .ok resp
    | .ehOther => .error (.otherExc "HTTPException" "Invalid response type")
  | none =>
    if code ∈ exceptionDictCodes then .ok (exceptionDictResponse code)
    else .error (.otherExc "TypeError" ("Unsupported error type! : " ++ toString code))

/-- The body of `Bermoid._process_exception` before its outer catch:
known taxonomy classes map to their status; otherwise debug mode renders a
developer page (its own failures become a plain 500); a configured custom
handler is tried next, and its successful return value is passed through
with no type validation (application.py:430) while its failures become a
plain 500; the fallback is the 500 renderer. -/
def processExceptionBody (app : AppCfg) (e : PyExc) : Except PyExc PROut :=
  match e with
  | .dictExc code =>
    match errorValidator app code with
    | .ok r => .ok (.resp r)
    | .error err => .error err
  | .otherExc _ _ =>
    if app.debug then
      match app.debugExcHandler e with
      | .ok r => .ok (.resp r)
      | .error _ =>
        .ok (.resp { content := some "Internal Error in exception handler",
                     status_code := 500 })
    else
      match app.customExcHandler with
      | some h =>
        match h e with
        | .ok v => .ok v
        | .error _ =>
          .ok (.resp { content := some "Internal Error in custom handler",
                       status_code := 500 })
      | none =>
        match errorValidator app 500 with
        | .ok r => .ok (.resp r)
        | .error err => .error err

/-- `Bermoid._process_exception`: the whole body runs under a final catch
that converts any failure into a fatal plain-text 500.  The result is
whatever the body produced — because of the unvalidated custom-handler
path it is not necessarily a `Response`. -/
def processException (app : AppCfg) (e : PyExc) : PROut :=
  match processExceptionBody app e with
  | .ok v => v
  | .error _ =>
    .resp { content := some "A fatal internal error occurred.", status_code := 500 }

/-- The matched-route branch of `handle_request` (lines 339-375): stage
handlers, request transformers, handler invocation, response
normalization, optional response-model validation. -/
def matchedPipeline (app : AppCfg) (r : RouteC) (params : List (String × PyVal)) :
    Except PyExc PROut :=
  match app.beforeStage with
  | .error e => .error e
  | .ok _ =>
    match app.reqTransformers with
    | .error e => .error e
    | .ok _ =>
      match app.runHandler r params with
      | .error e => .error e
      | .ok hr =>
        match processResponse hr "handler" with
        | .error e => .error e
        | .ok pr => if r.hasRespModel then app.respModelValidate pr else .ok pr

/-- The welcome response of the empty-route-table branch (debug mode
serves the bundled HTML template; otherwise a plain greeting). -/
def welcomeResponse (debug : Bool) : Resp :=
  if debug then
    { content := some "default_welcome.html", content_type := "text/html" }
  else
    { content := some "<h1>Welcome to Aquilify, Your installation successful.</h1>" }

/-- The route-matching section of the `try` body (lines 316-384 as an
`Except` computation): the welcome response on an empty route table, the
matched-route pipeline on a full match, and the 404/405 renderers
otherwise. -/
def routeSection (app : AppCfg) (path method : String) : Except PyExc PROut :=
  if app.routes.isEmpty then .ok (.resp (welcomeResponse app.debug))
  else
    match scanRoutes app.routes path method [] with
    | .matched r params =>
      matchedPipeline app r (params.map fun p => (p.1, convertValue p.2))
    | .unmatched allowed =>
      if allowed.isEmpty then (errorValidator app 404).map .resp
      else (errorValidator app 405).map .resp

/-- The `try` body of `handle_request` (lines 314-394): the matching
section, then response transformers, middleware application, the
`isinstance(response, (Response, Awaitable))` guard — which passes
awaitable non-Responses as well as Responses and raises `ValueError` on
everything else — and the AFTER stage handlers. -/
def handleRequestTry (app : AppCfg) (path method : String) : Except PyExc PROut :=
  match routeSection app path method with
  | .error e => .error e
  | .ok pr =>
    match app.respTransformers pr with
    | .error e => .error e
    | .ok pr2 =>
      match app.middlewares pr2 with
      | .error e => .error e
      | .ok pr3 =>
        match pr3 with
        | .resp r =>
          match app.afterStage with
          | .error e => .error e
          | .ok _ => .ok (.resp r)
        | .awaitable d =>
          match app.afterStage with
          | .error e => .error e
          | .ok _ => .ok (.awaitable d)
        | .raw _ =>
          .error (.otherExc "ValueError"
            "Middleware must return a Response object or Awaitable[Response]")

/-- `handle_request` as a whole: the `try` body under the top-level catch,
followed by the single hand-off `await response(scope, receive, send)` at
line 399 — which sits outside the `try`, so when `response` is not a
callable `Response` object (an awaitable that slipped through the guard,
or a custom exception handler's unvalidated non-Response return), the
call raises a `TypeError` that escapes `handle_request` uncaught.
`.ok r` means exactly the response `r` is handed to the transport;
`.error` means an exception escaping to the transport instead. -/
def handleRequestFinal (app : AppCfg) (path method : String) : Except PyExc Resp :=
  match handleRequestTry app path method with
  | .ok (.resp r) => .ok r
  | .ok _ => .error (.otherExc "TypeError" "object is not callable")
  | .error e =>
    match processException app e with
    | .resp r => .ok r
    | _ => .error (.otherExc "TypeError" "object is not callable")

/-! ## `ASGIMiddlewareLoader.build_middleware_stack`
(core/asgi/middleware.py:136-156)

A middleware factory wraps the current app; at request time the app built
last is entered first.  Apps are embedded as functions from a request
token to the trace of middleware entries the request passes through, so a
factory for entry `i` maps `app` to the app that records `i` and then
continues into `app`. -/

/-- The stage tag of a middleware spec. -/
inductive MwStage where
  | pre
  | post
  | both
deriving DecidableEq, Repr

/-- A `_MiddlewareSpec` (fields relevant to ordering). -/
structure MSpec where
  stage : MwStage
  order : Int
deriving DecidableEq, Repr

/-- An app: maps a request token to the entry trace in execution order. -/
def MwApp := Unit → List Nat

/-- The factory of registration entry `i` applied to `app`. -/
def wrapMw (i : Nat) (app : MwApp) : MwApp :=
  fun u => i :: app u

/-- Python `list.sort(key=lambda x: x[0].order)` is a stable ascending
sort; on entries tagged with distinct registration indices this is the
unique permutation ascending in `(order, index)`. -/
def specLe (a b : Nat × MSpec) : Bool :=
  a.2.order < b.2.order || (a.2.order = b.2.order && a.1 ≤ b.1)

/-- Stable insertion of an indexed spec into a sorted list. -/
def insSpec (x : Nat × MSpec) : List (Nat × MSpec) → List (Nat × MSpec)
  | [] => [x]
  | y :: ys => if specLe x y then x :: y :: ys else y :: insSpec x ys

/-- The stable ascending sort by `order` of indexed specs. -/
def sortSpecs : List (Nat × MSpec) → List (Nat × MSpec)
  | [] => []
  | x :: xs => insSpec x (sortSpecs xs)

/-- Is the spec wrapped in the first pass (`stage in ('pre', 'both')`)? -/
def isPreBoth (s : MSpec) : Bool :=
  s.stage = .pre || s.stage = .both

/-- `build_middleware_stack`: split into the pre/both and post passes,
stable-sort each by `order`, and fold each factory over the app. -/
def buildMiddlewareStack (specs : List MSpec) (app : MwApp) : MwApp :=
  let indexed := specs.enum
  let preBoth := sortSpecs (indexed.filter fun p => isPreBoth p.2)
  let post := sortSpecs (indexed.filter fun p => p.2.stage = .post)
  (preBoth ++ post).foldl (fun a p => wrapMw p.1 a) app

/-- The execution trace of the built stack on one request, starting from
an app that records nothing (the wrapped endpoint). -/
def stackTrace (specs : List MSpec) : List Nat :=
  buildMiddlewareStack specs (fun _ => []) ()

/-! ## The lifecycle machine `Bermoid._lifespan`
(core/application.py:703-739) -/

/-- A message sent on the lifecycle channel. -/
inductive LMsg where
  | startupComplete
  | startupFailed (msg : String)
  | shutdownComplete
  | shutdownFailed (msg : String)
deriving DecidableEq, Repr

/-- Run lifecycle hooks in order, as `_startup_handlers` and
`_shutdown_handlers` do: each hook either completes or raises; the first
raise stops the loop.  Returns the number of hooks invoked and the error
of the failing one, if any.  (`traceback.format_exc()` is abstracted to
the propagated message.) -/
def runLifecycleHooks : List (Except String Unit) → Nat × Option String
  | [] => (0, none)
  | .ok _ :: hs =>
    let r := runLifecycleHooks hs
    (r.1 + 1, r.2)
  | .error e :: _ => (1, some e)

/-- Observable result of one `_lifespan` run: messages sent, number of
startup and shutdown hooks invoked, whether `started` was set, and the
exception escaping the coroutine, if any. -/
structure LifespanRun where
  sent : List LMsg
  startupRan : Nat
  shutdownRan : Nat
  started : Bool
  escaped : Option String
deriving DecidableEq, Repr

/-- `Bermoid._lifespan`: receive the first event; on `lifespan.startup`
run the startup hooks, acknowledge completion, set `started`, and await a
second event; any exception inside the `try` sends a startup-failed (or,
after `started`, shutdown-failed) acknowledgment and re-raises; once the
`try` completes, the `else` clause runs the shutdown hooks and sends the
shutdown-complete acknowledgment, with no handler covering its failures.
`secondReceive` is the outcome of the second `receive()` call. -/
def lifespan (firstEventType : String) (secondReceive : Except String Unit)
    (startupHooks shutdownHooks : List (Except String Unit)) : LifespanRun :=
  if firstEventType = "lifespan.startup" then
    match runLifecycleHooks startupHooks with
    | (k, some e) =>
      { sent := [.startupFailed e], startupRan := k, shutdownRan := 0,
        started := false, escaped := some e }
    | (k, none) =>
      match secondReceive with
      | .error e =>
        { sent := [.startupComplete, .shutdownFailed e], startupRan := k,
          shutdownRan := 0, started := true, escaped := some e }
      | .ok _ =>
        match runLifecycleHooks shutdownHooks with
        | (m, some e) =>
          { sent := [.startupComplete], startupRan := k, shutdownRan := m,
            started := true, escaped := some e }
        | (m, none) =>
          { sent := [.startupComplete, .shutdownComplete], startupRan := k,
            shutdownRan := m, started := true, escaped := none }
  else
    match runLifecycleHooks shutdownHooks with
    | (m, some e) =>
      { sent := [], startupRan := 0, shutdownRan := m,
        started := false, escaped := some e }
    | (m, none) =>
      { sent := [.shutdownComplete], startupRan := 0, shutdownRan := m,
        started := false, escaped := none }

/-! ## `HTTPException.__init__` (exceptions/http/base.py:13-34) -/

/-- The phrases of Python `http.HTTPStatus`; `statusPhrase c = none` means
`c` is not a member and `HTTPStatus(c)` raises `ValueError`. -/
def statusPhrase (code : Nat) : Option String :=
  (([(100, "Continue"), (101, "Switching Protocols"), (102, "Processing"),
     (103, "Early Hints"),
     (200, "OK"), (201, "Created"), (202, "Accepted"),
     (203, "Non-Authoritative Information"), (204, "No Content"),
     (205, "Reset Content"), (206, "Partial Content"), (207, "Multi-Status"),
     (208, "Already Reported"), (226, "IM Used"),
     (300, "Multiple Choices"), (301, "Moved Permanently"), (302, "Found"),
     (303, "See Other"), (304, "Not Modified"), (305, "Use Proxy"),
     (307, "Temporary Redirect"), (308, "Permanent Redirect"),
     (400, "Bad Request"), (401, "Unauthorized"), (402, "Payment Required"),
     (403, "Forbidden"), (404, "Not Found"), (405, "Method Not Allowed"),
     (406, "Not Acceptable"), (407, "Proxy Authentication Required"),
     (408, "Request Timeout"), (409, "Conflict"), (410, "Gone"),
     (411, "Length Required"), (412, "Precondition Failed"),
     (413, "Request Entity Too Large"), (414, "Request-URI Too Long"),
     (415, "Unsupported Media Type"), (416, "Requested Range Not Satisfiable"),
     (417, "Expectation Failed"), (418, "Im a teapot"),
     (421, "Misdirected Request"), (422, "Unprocessable Entity"),
     (423, "Locked"), (424, "Failed Dependency"), (425, "Too Early"),
     (426, "Upgrade Required"), (428, "Precondition Required"),
     (429, "Too Many Requests"), (431, "Request Header Fields Too Large"),
     (451, "Unavailable For Legal Reasons"),
     (500, "Internal Server Error"), (501, "Not Implemented"),
     (502, "Bad Gateway"), (503, "Service Unavailable"),
     (504, "Gateway Timeout"), (505, "HTTP Version Not Supported"),
     (506, "Variant Also Negotiates"), (507, "Insufficient Storage"),
     (508, "Loop Detected"), (510, "Not Extended"),
     (511, "Network Authentication Required")] :
    List (Nat × String)).find? (fun p => p.1 = code)).map (fun p => p.2)

/-- `HTTPStatus(c).description`, evaluated when no reason is given; its
text is irrelevant to the claims and abstracted, but it is defined exactly
on the members, like the phrase. -/
def statusDescription (code : Nat) : Option String :=
  (statusPhrase code).map (fun p => "Description of " ++ p)

/-- The `status_code` argument: an `int` or a value of any other type. -/
inductive StatusArg where
  | int (n : Int)
  | nonInt
deriving DecidableEq, Repr

/-- `isinstance(status_code, int) and 100 <= status_code <= 599`. -/
def statusArgValid : StatusArg → Bool
  | .int n => 100 ≤ n && n ≤ 599
  | .nonInt => false

/-- The constructed exception state. -/
structure HTTPExc where
  status_code : Nat
  detail : String
  reason : String
  headers : List (String × String)
deriving DecidableEq, Repr

/-- Python truthiness of the optional string arguments (`detail or …`):
`None` and the empty string are falsy. -/
def pyTruthy : Option String → Bool
  | none => false
  | some s => s ≠ ""

/-- `x or fallback()` where the fallback is a `HTTPStatus` lookup that
raises `ValueError` on a non-member code. -/
def pyOrStatus (given : Option String) (fallback : Option String) : Except String String :=
  if pyTruthy given then .ok (given.getD "")
  else
    match fallback with
    | some s => .ok s
    | none => .error "ValueError: not a valid HTTPStatus"

/-- The status code retained by the constructor: the argument itself when
it is an int in 100..599, else 500 (after a warning). -/
def httpStatusCode (status : StatusArg) : Nat :=
  if statusArgValid status then
    match status with
    | .int n => n.toNat
    | .nonInt => 500
  else 500

/-- `HTTPException.__init__`: an argument that is not an int in 100..599
is warned about and replaced by 500; the detail defaults to the phrase and
the reason to the description of the final code (either lookup raising on
a non-member code). -/
def mkHTTPException (status : StatusArg) (detail reason : Option String)
    (headers : Option (List (String × String))) : Except String HTTPExc :=
  match pyOrStatus detail (statusPhrase (httpStatusCode status)) with
  | .error e => .error e
  | .ok d =>
    match pyOrStatus reason (statusDescription (httpStatusCode status)) with
    | .error e => .error e
    | .ok r =>
      .ok { status_code := httpStatusCode status, detail := d, reason := r,
            headers := headers.getD [] }

/-! ## Derived notions used to state the claims -/

/-- The methods contributed to the allowed accumulator by the routes whose
pattern matches the path, in registration order. -/
def pathMethods (routes : List RouteC) (path : String) : List String :=
  routes.foldr
    (fun r acc => (if (r.matcher path).isSome then r.methods else []) ++ acc) []

/-- A literal-path matcher for fixture routes (matches one exact path
with no captures). -/
def litMatcher (lit : String) : String → Option (List (String × String)) :=
  fun p => if p = lit then some [] else none

/-- Fixture: a route on a different path. -/
def fixNoMatch : RouteC :=
  { pattern := "/z", methods := ["GET"], handlerId := 0, matcher := litMatcher "/z" }

/-- Fixture: first registration on `/a`, GET only. -/
def fixFirst : RouteC :=
  { pattern := "/a", methods := ["GET"], handlerId := 1, matcher := litMatcher "/a" }

/-- Fixture: second registration on `/a`, overlapping, GET and POST. -/
def fixSecond : RouteC :=
  { pattern := "/a", methods := ["GET", "POST"], handlerId := 2, matcher := litMatcher "/a" }

/-- The token list `compilePattern` produces for `/items/\x7bid:int\x7d`
with strict slashes (the registration default). -/
def itemsIntToks : List RTok :=
  [.exact '/', .exact 'i', .exact 't', .exact 'e', .exact 'm', .exact 's',
   .exact '/', .group "id" .rint]

/-- The registered route for the template `/items/\x7bid:int\x7d`: pattern
compiled by the converter, matched by the embedded engine. -/
def itemsIntRoute : RouteC :=
  { pattern := "/items/\x7bid:int\x7d", methods := ["GET"], handlerId := 7,
    matcher := fun p =>
      match compilePattern "/items/\x7bid:int\x7d" true with
      | .ok ts => matchPattern ts p
      | .error _ => none }

/-- Fixture: a configuration whose custom exception handler successfully
returns a bare string — a non-Response that `_process_exception` passes
through unvalidated — with a middleware chain that raises so the handler
is reached. -/
def badCustomApp : AppCfg :=
  { routes := [], debug := false,
    customExcHandler := some (fun _ => .ok (.raw "str")),
    middlewares := fun _ => .error (.otherExc "RuntimeError" "boom") }

/-- Fixture: a configuration whose middleware chain returns an awaitable
non-Response, which passes the `(Response, Awaitable)` guard. -/
def awaitableApp : AppCfg :=
  { routes := [], middlewares := fun _ => .ok (.awaitable "coroutine") }

/-- Fixture: a well-typed configuration — no custom exception handler and
a middleware chain producing a `Response`. -/
def wellTypedApp : AppCfg :=
  { routes := [], middlewares := fun _ => .ok (.resp {}) }

/-! ## Sanity checks of the embedding on concrete inputs -/

example : matchPattern itemsIntToks "/items/42" = some [("id", "42")] := by decide

example : matchPattern itemsIntToks "/items/abc" = none := by decide

example : convertValue "42" = .vint 42 := by decide

example : convertValue "abc" = .vstr "abc" := by decide

example : xmlWf "<a>hi</a>" = true := by decide

example : xmlWf "<h1>Hello" = false := by decide

example : xmlWf "<p>one</p><p>two</p>" = false := by decide

example :
    matchPattern [.exact '/', .exact 'a', .optChar '/'] "/a/" = some [] := by decide

/-! ## Claim C4 -/

/-- Claim C4: registering the template `/items/\x7bid:int\x7d` and
dispatching GET `/items/42` matches the route and yields the typed path
parameter `id = 42` (an integer); dispatching GET `/items/abc` does not
match that route (the int placeholder pattern rejects non-digit text), so
the dispatch falls through to not-found rather than producing an uncast
text parameter. -/
theorem items_int_roundtrip :
    compilePattern "/items/\x7bid:int\x7d" true = .ok itemsIntToks ∧
    outcomeParams (dispatchOutcome [itemsIntRoute] "/items/42" "GET") =
      some (7, [("id", PyVal.vint 42)]) ∧
    itemsIntRoute.matcher "/items/abc" = none ∧
    isNotFound (dispatchOutcome [itemsIntRoute] "/items/abc" "GET") = true :=
  ⟨rfl, by decide, by decide, by decide⟩

/-! ## Claim C5 -/

/-- Folding middleware factories over an app prepends the wrapped indices
in reverse fold order to the execution trace. -/
theorem foldl_wrapMw (l : List (Nat × MSpec)) : ∀ (app : MwApp) (u : Unit),
    (l.foldl (fun a p => wrapMw p.1 a) app) u = (l.map Prod.fst).reverse ++ app u := by
  induction l with
  | nil => intro app u; rfl
  | cons x xs ih =>
    intro app u
    show (xs.foldl (fun a p => wrapMw p.1 a) (wrapMw x.1 app)) u = _
    rw [ih (wrapMw x.1 app) u]
    simp [wrapMw]

/-- Claim C5, counterexample: three `both`-stage middleware entries with
orders `[2, 1, 3]` (registration indices 0, 1, 2).  The claimed ascending
execution order would visit indices `[1, 0, 2]`; the built stack executes
`[2, 0, 1]`, i.e. orders `[3, 2, 1]`. -/
theorem middleware_ascending_execution_counterexample :
    stackTrace [⟨.both, 2⟩, ⟨.both, 1⟩, ⟨.both, 3⟩] = [2, 0, 1] ∧
    stackTrace [⟨.both, 2⟩, ⟨.both, 1⟩, ⟨.both, 3⟩] ≠ [1, 0, 2] := by decide

/-- Claim C5, amended: `build_middleware_stack` stable-sorts the pre/both
entries and then the post entries ascending by `order` and wraps the app
in that order, so at request time the entries execute in the reverse of
that sorted sequence — descending numeric order within each pass, with
equal orders in reverse registration order, and post-stage entries
outermost (first). -/
theorem middleware_stack_execution_order (specs : List MSpec) (app : MwApp) (u : Unit) :
    buildMiddlewareStack specs app u =
      ((sortSpecs ((specs.enum).filter fun p => isPreBoth p.2) ++
        sortSpecs ((specs.enum).filter fun p => p.2.stage = .post)).map Prod.fst).reverse
      ++ app u :=
  foldl_wrapMw _ app u

/-! ## Claim C6 -/

/-- Running hooks where a prefix succeeds and the next one fails invokes
exactly the prefix and the failing hook, and propagates its error. -/
theorem runLifecycleHooks_append_fail (pre post : List (Except String Unit)) (msg : String)
    (hpre : ∀ x ∈ pre, x = Except.ok ()) :
    runLifecycleHooks (pre ++ .error msg :: post) = (pre.length + 1, some msg) := by
  induction pre with
  | nil => rfl
  | cons x xs ih =>
    have hx : x = Except.ok () := hpre x (List.mem_cons_self _ _)
    subst hx
    have ih2 := ih (fun y hy => hpre y (List.mem_cons_of_mem _ hy))
    simp [runLifecycleHooks, ih2]

/-- Claim C6: when a startup hook raises, the startup hooks before it all
ran, the hooks after it did not run, a startup-failed acknowledgment
carrying the failure text is the only message sent (in particular no
startup-complete), the running state is never entered, and no shutdown
hook runs. -/
theorem startup_failure_aborts_lifecycle
    (pre post shutdownHooks : List (Except String Unit)) (msg : String)
    (r2 : Except String Unit) (hpre : ∀ x ∈ pre, x = Except.ok ()) :
    (lifespan "lifespan.startup" r2 (pre ++ .error msg :: post) shutdownHooks).sent
        = [.startupFailed msg] ∧
    (lifespan "lifespan.startup" r2 (pre ++ .error msg :: post) shutdownHooks).started
        = false ∧
    (lifespan "lifespan.startup" r2 (pre ++ .error msg :: post) shutdownHooks).startupRan
        = pre.length + 1 ∧
    (lifespan "lifespan.startup" r2 (pre ++ .error msg :: post) shutdownHooks).shutdownRan
        = 0 ∧
    LMsg.startupComplete ∉
      (lifespan "lifespan.startup" r2 (pre ++ .error msg :: post) shutdownHooks).sent := by
  have h := runLifecycleHooks_append_fail pre post msg hpre
  simp [lifespan, h]

/-- Claim C6, witness: hooks `[ok, raise "boom", ok]` send exactly the
startup-failed acknowledgment, run two hooks, and never start. -/
theorem startup_failure_aborts_lifecycle_witness :
    (lifespan "lifespan.startup" (.ok ()) [.ok (), .error "boom", .ok ()] []).sent
        = [.startupFailed "boom"] ∧
    (lifespan "lifespan.startup" (.ok ()) [.ok (), .error "boom", .ok ()] []).started
        = false ∧
    (lifespan "lifespan.startup" (.ok ()) [.ok (), .error "boom", .ok ()] []).startupRan
        = 2 ∧
    (lifespan "lifespan.startup" (.ok ()) [.ok (), .error "boom", .ok ()] []).shutdownRan
        = 0 ∧
    LMsg.startupComplete ∉
      (lifespan "lifespan.startup" (.ok ()) [.ok (), .error "boom", .ok ()] []).sent := by
  have h := startup_failure_aborts_lifecycle [.ok ()] [.ok ()] [] "boom" (.ok ())
    (by intro x hx; simp at hx; exact hx)
  simpa using h

/-! ## Claim C8 -/

/-- Claim C8, counterexample: a first lifecycle event of the unknown type
`lifespan.weird` is not treated as a protocol error — the shutdown hook
runs and a shutdown-complete acknowledgment is sent. -/
theorem unknown_lifecycle_event_counterexample :
    (lifespan "lifespan.weird" (.ok ()) [] [.ok ()]).shutdownRan = 1 ∧
    (lifespan "lifespan.weird" (.ok ()) [] [.ok ()]).sent = [.shutdownComplete] ∧
    (lifespan "lifespan.weird" (.ok ()) [] [.ok ()]).sent ≠ [] := by decide

/-- Claim C8, amended: any first event that is not the startup event is
treated as a shutdown: no startup hook runs, the shutdown hooks run, and
a shutdown-complete acknowledgment is sent when they all succeed (a hook
failure escapes the coroutine with no acknowledgment at all). -/
theorem nonstartup_event_treated_as_shutdown
    (ev : String) (r2 : Except String Unit) (su sd : List (Except String Unit))
    (h : ev ≠ "lifespan.startup") :
    (lifespan ev r2 su sd).startupRan = 0 ∧
    (lifespan ev r2 su sd).shutdownRan = (runLifecycleHooks sd).1 ∧
    (lifespan ev r2 su sd).escaped = (runLifecycleHooks sd).2 ∧
    (lifespan ev r2 su sd).sent =
      (match (runLifecycleHooks sd).2 with
       | some _ => []
       | none => [LMsg.shutdownComplete]) := by
  rcases h2 : runLifecycleHooks sd with ⟨m, e⟩
  cases e <;> simp [lifespan, h, h2]

/-- Claim C8, amended, witness: at the concrete event `lifespan.x` with
one succeeding shutdown hook, no startup hook runs, the shutdown hook
runs, and shutdown-complete is acknowledged. -/
theorem nonstartup_event_treated_as_shutdown_witness :
    (lifespan "lifespan.x" (.ok ()) [.error "s"] [.ok ()]).startupRan = 0 ∧
    (lifespan "lifespan.x" (.ok ()) [.error "s"] [.ok ()]).shutdownRan = 1 ∧
    (lifespan "lifespan.x" (.ok ()) [.error "s"] [.ok ()]).sent
        = [LMsg.shutdownComplete] := by
  have h := nonstartup_event_treated_as_shutdown "lifespan.x" (.ok ())
    [.error "s"] [.ok ()] (by decide)
  exact ⟨h.1, by simpa using h.2.1, by simpa using h.2.2.2⟩

/-! ## Claim C9 -/

/-- Claim C9, counterexample: the handler return `"<a>hi</a>"` begins with
an opening angle bracket, but normalization produces an XML-typed
response (`application/xml`), not an HTML-typed one. -/
theorem bare_string_xml_counterexample :
    processResponse (.hstr "<a>hi</a>") "handler" =
      .ok (.resp { content := some "<a>hi</a>", status_code := 200, headers := [],
                   content_type := "application/xml" }) ∧
    "application/xml" ≠ "text/html" :=
  ⟨rfl, by decide⟩

/-- Claim C9, amended: a bare string always normalizes successfully into a
response with status 200 and the string as body; it is XML-typed when it
begins with an opening angle bracket and parses as well-formed XML,
HTML-typed when it begins with an opening angle bracket but does not
parse, and plain-text-typed otherwise. -/
theorem bare_string_normalization (s name : String) :
    ∃ r : Resp, processResponse (.hstr s) name = .ok (.resp r) ∧
      r.content = some s ∧ r.status_code = 200 ∧
      (r.content_type = "text/plain" ↔ looksLikeMarkup s = false) ∧
      (r.content_type = "text/html" ↔
        (looksLikeMarkup s = true ∧ xmlWf s = false)) ∧
      (r.content_type = "application/xml" ↔
        (looksLikeMarkup s = true ∧ xmlWf s = true)) := by
  refine ⟨{ content := some s, content_type := classifyStr s }, rfl, rfl, rfl, ?_, ?_, ?_⟩
  all_goals
    unfold classifyStr
    rcases hm : looksLikeMarkup s <;> rcases hx : xmlWf s <;> simp

/-! ## Claim C10 -/

/-- The retained status code is always in 100..599, and is 500 whenever
the argument was invalid. -/
theorem httpStatusCode_bounds (status : StatusArg) :
    (100 ≤ httpStatusCode status ∧ httpStatusCode status ≤ 599) ∧
    (statusArgValid status = false → httpStatusCode status = 500) := by
  cases status with
  | int n =>
    cases hvb : statusArgValid (.int n) with
    | true =>
      simp only [statusArgValid, Bool.and_eq_true, decide_eq_true_eq] at hvb
      obtain ⟨h1, h2⟩ := hvb
      constructor
      · simp only [httpStatusCode, statusArgValid]
        rw [if_pos (by simp [h1, h2])]
        constructor <;> omega
      · intro hcon
        exact Bool.noConfusion hcon
    | false =>
      simp [httpStatusCode, hvb]
  | nonInt =>
    simp [httpStatusCode, statusArgValid]

/-- A successful construction fixes the fields from the retained code. -/
theorem mkHTTPException_ok_fields (status : StatusArg) (detail reason : Option String)
    (headers : Option (List (String × String))) (e : HTTPExc)
    (he : mkHTTPException status detail reason headers = .ok e) :
    e.status_code = httpStatusCode status ∧
    (pyTruthy detail = false → some e.detail = statusPhrase (httpStatusCode status)) := by
  unfold mkHTTPException at he
  cases hd : pyOrStatus detail (statusPhrase (httpStatusCode status)) with
  | error err => rw [hd] at he; exact Except.noConfusion he
  | ok d =>
    rw [hd] at he
    cases hr : pyOrStatus reason (statusDescription (httpStatusCode status)) with
    | error err => rw [hr] at he; exact Except.noConfusion he
    | ok r =>
      rw [hr] at he
      rw [Except.ok.injEq] at he
      constructor
      · rw [← he]
      · intro ht
        rw [← he]
        unfold pyOrStatus at hd
        rw [ht] at hd
        simp only [Bool.false_eq_true, if_false] at hd
        cases hp : statusPhrase (httpStatusCode status) with
        | none => rw [hp] at hd; exact Except.noConfusion hd
        | some p =>
          rw [hp] at hd
          rw [Except.ok.injEq] at hd
          simp [hd]

/-- Claim C10: every successfully constructed `HTTPException` carries a
status code in 100..599; an argument that is not an int in 100..599 is
replaced by 500 instead of raising; and when no (truthy) detail is given,
the detail defaults to the standard phrase of the final status code. -/
theorem http_exception_status_invariant
    (status : StatusArg) (detail reason : Option String)
    (headers : Option (List (String × String))) :
    (∀ e, mkHTTPException status detail reason headers = .ok e →
        100 ≤ e.status_code ∧ e.status_code ≤ 599) ∧
    (statusArgValid status = false →
      ∀ e, mkHTTPException status detail reason headers = .ok e →
        e.status_code = 500) ∧
    (∀ e, mkHTTPException status detail reason headers = .ok e →
        pyTruthy detail = false → some e.detail = statusPhrase e.status_code) := by
  refine ⟨?_, ?_, ?_⟩
  · intro e he
    rw [(mkHTTPException_ok_fields status detail reason headers e he).1]
    exact (httpStatusCode_bounds status).1
  · intro hv e he
    rw [(mkHTTPException_ok_fields status detail reason headers e he).1]
    exact (httpStatusCode_bounds status).2 hv
  · intro e he ht
    have h := mkHTTPException_ok_fields status detail reason headers e he
    rw [h.1]
    exact h.2 ht

/-- Claim C10, witness: constructing with the out-of-range code 700 and no
detail succeeds with status 500 (in range) and the standard phrase. -/
theorem http_exception_status_invariant_witness :
    statusArgValid (.int 700) = false ∧
    ∃ e, mkHTTPException (.int 700) none none none = .ok e ∧
      e.status_code = 500 ∧ 100 ≤ e.status_code ∧ e.status_code ≤ 599 ∧
      some e.detail = statusPhrase e.status_code := by
  have hmk : mkHTTPException (.int 700) none none none =
      .ok { status_code := 500, detail := "Internal Server Error",
            reason := "Description of Internal Server Error", headers := [] } := rfl
  have h := http_exception_status_invariant (.int 700) none none none
  refine ⟨by decide, _, hmk, h.2.1 (by decide) _ hmk, (h.1 _ hmk).1, (h.1 _ hmk).2,
    h.2.2 _ hmk (by decide)⟩

/-! ## Claim C1 -/

/-- Scanning past a prefix of routes none of which fully matches reaches
the rest of the list (with some accumulated allowed-methods). -/
theorem scanRoutes_skip (path method : String) (pre : List RouteC) :
    ∀ (rest : List RouteC) (acc : List String),
      (∀ r ∈ pre, fullMatchB r path method = false) →
      ∃ acc2, scanRoutes (pre ++ rest) path method acc = scanRoutes rest path method acc2 := by
  induction pre with
  | nil => intro rest acc _; exact ⟨acc, rfl⟩
  | cons r rs ih =>
    intro rest acc h
    have hr := h r (List.mem_cons_self _ _)
    rw [List.cons_append]
    cases hm : r.matcher path with
    | none =>
      simp only [scanRoutes, hm]
      exact ih rest acc (fun y hy => h y (List.mem_cons_of_mem _ hy))
    | some ps =>
      have hma : methodAllowed r.methods method = false := by
        rw [fullMatchB, hm] at hr
        simpa using hr
      simp only [scanRoutes, hm, hma, Bool.false_eq_true, if_false]
      exact ih rest (acc ++ r.methods) (fun y hy => h y (List.mem_cons_of_mem _ hy))

/-- Claim C1: with routes registered in the order
`pre ++ R1 :: mid ++ R2 :: post`, where no route in `pre` fully matches
the request and R1 and R2 both fully match it (overlapping patterns,
allowed method), the scan selects R1 — the first full match in
registration order wins, with no specificity ranking — and the dispatch
outcome invokes R1's handler with R1's typed captures. -/
theorem route_registration_order_determinism
    (pre mid post : List RouteC) (r1 r2 : RouteC) (path method : String)
    (hpre : ∀ r ∈ pre, fullMatchB r path method = false)
    (h1 : fullMatchB r1 path method = true)
    (h2 : fullMatchB r2 path method = true) :
    ∃ params, r1.matcher path = some params ∧
      scanRoutes (pre ++ r1 :: (mid ++ r2 :: post)) path method [] = .matched r1 params ∧
      outcomeParams (dispatchOutcome (pre ++ r1 :: (mid ++ r2 :: post)) path method)
        = some (r1.handlerId, params.map fun p => (p.1, convertValue p.2)) := by
  obtain ⟨acc2, hacc⟩ := scanRoutes_skip path method pre (r1 :: (mid ++ r2 :: post)) [] hpre
  rw [fullMatchB, Bool.and_eq_true] at h1
  obtain ⟨hsome, hma⟩ := h1
  cases hm : r1.matcher path with
  | none => rw [hm] at hsome; exact absurd hsome (by simp)
  | some params =>
    have hscan : scanRoutes (pre ++ r1 :: (mid ++ r2 :: post)) path method []
        = .matched r1 params := by
      rw [hacc]
      simp only [scanRoutes, hm, hma, if_true]
    have hne : (pre ++ r1 :: (mid ++ r2 :: post)).isEmpty = false := by simp
    refine ⟨params, rfl, hscan, ?_⟩
    simp [dispatchOutcome, hne, hscan, outcomeParams]

/-- Claim C1, witness: routes `[fixNoMatch, fixFirst, fixSecond]` where
the latter two overlap on `/a`; GET (spelled `get`, exercising the
case-insensitive method test) resolves to `fixFirst`. -/
theorem route_registration_order_determinism_witness :
    fullMatchB fixFirst "/a" "get" = true ∧
    fullMatchB fixSecond "/a" "get" = true ∧
    ∃ params, fixFirst.matcher "/a" = some params ∧
      scanRoutes [fixNoMatch, fixFirst, fixSecond] "/a" "get" [] = .matched fixFirst params ∧
      outcomeParams (dispatchOutcome [fixNoMatch, fixFirst, fixSecond] "/a" "get")
        = some (fixFirst.handlerId, params.map fun p => (p.1, convertValue p.2)) := by
  refine ⟨by decide, by decide, ?_⟩
  have h := route_registration_order_determinism [fixNoMatch] [] [] fixFirst fixSecond
    "/a" "get"
    (by intro r hr; simp at hr; subst hr; decide)
    (by decide) (by decide)
  simpa using h

/-! ## Claim C3 -/

/-- When every path-matching route rejects the method, the scan reaches
the end of the table and accumulates exactly the methods of the
path-matching routes, in order. -/
theorem scanRoutes_unmatched (path method : String) (routes : List RouteC)
    (h : ∀ r ∈ routes, (r.matcher path).isSome = true →
      methodAllowed r.methods method = false) :
    ∀ acc, scanRoutes routes path method acc = .unmatched (acc ++ pathMethods routes path) := by
  induction routes with
  | nil => intro acc; simp [scanRoutes, pathMethods]
  | cons r rs ih =>
    intro acc
    cases hm : r.matcher path with
    | none =>
      simp only [scanRoutes, hm]
      rw [ih (fun y hy hs => h y (List.mem_cons_of_mem _ hy) hs) acc]
      simp [pathMethods, hm]
    | some ps =>
      have hma : methodAllowed r.methods method = false :=
        h r (List.mem_cons_self _ _) (by rw [hm]; rfl)
      simp only [scanRoutes, hm, hma, Bool.false_eq_true, if_false]
      rw [ih (fun y hy hs => h y (List.mem_cons_of_mem _ hy) hs) (acc ++ r.methods)]
      simp [pathMethods, hm, List.append_assoc]

/-- Membership in the accumulated allowed set is exactly membership in the
method set of some path-matching route. -/
theorem mem_pathMethods (routes : List RouteC) (path : String) (m : String) :
    m ∈ pathMethods routes path ↔
      ∃ r ∈ routes, (r.matcher path).isSome = true ∧ m ∈ r.methods := by
  induction routes with
  | nil => simp [pathMethods]
  | cons r rs ih =>
    by_cases hm : (r.matcher path).isSome = true
    · simp only [pathMethods, List.foldr_cons, hm, if_true, List.mem_append]
      rw [show (List.foldr
          (fun r acc => (if (r.matcher path).isSome then r.methods else []) ++ acc) [] rs)
          = pathMethods rs path from rfl, ih]
      constructor
      · rintro (hmr | ⟨r2, hr2, hs2, hm2⟩)
        · exact ⟨r, List.mem_cons_self _ _, hm, hmr⟩
        · exact ⟨r2, List.mem_cons_of_mem _ hr2, hs2, hm2⟩
      · rintro ⟨r2, hr2, hs2, hm2⟩
        rcases List.mem_cons.1 hr2 with h2 | h2
        · subst h2; exact Or.inl hm2
        · exact Or.inr ⟨r2, h2, hs2, hm2⟩
    · have hm2 : (r.matcher path).isSome = false := by
        cases hval : (r.matcher path).isSome
        · rfl
        · exact absurd hval hm
      simp only [pathMethods, List.foldr_cons, hm2, Bool.false_eq_true, if_false,
        List.nil_append]
      rw [show (List.foldr
          (fun r acc => (if (r.matcher path).isSome then r.methods else []) ++ acc) [] rs)
          = pathMethods rs path from rfl, ih]
      constructor
      · rintro ⟨r2, hr2, hs2, hmm2⟩
        exact ⟨r2, List.mem_cons_of_mem _ hr2, hs2, hmm2⟩
      · rintro ⟨r2, hr2, hs2, hmm2⟩
        rcases List.mem_cons.1 hr2 with h2 | h2
        · subst h2; rw [hs2] at hm2; exact absurd hm2 (by simp)
        · exact ⟨r2, h2, hs2, hmm2⟩

/-- Claim C3, counterexample: with an empty route table no pattern matches
the path, yet the outcome is the welcome page, not the 404 branch. -/
theorem empty_routes_welcome_counterexample :
    dispatchOutcome [] "/x" "GET" = .welcome ∧
    isWelcome (dispatchOutcome [] "/x" "GET") = true ∧
    isNotFound (dispatchOutcome [] "/x" "GET") = false :=
  ⟨rfl, rfl, rfl⟩

/-- Claim C3, amended: when some registered route's pattern matches the
path but every path-matching route rejects the method, the outcome is
method-not-allowed carrying exactly the union of the method sets of the
path-matching routes; and when at least one route is registered and none
matches the path, the outcome is the distinct not-found branch (with an
empty route table a welcome page with status 200 is produced instead). -/
theorem method_not_allowed_union (routes : List RouteC) (path method : String) :
    ((∃ r ∈ routes, (r.matcher path).isSome = true) ∧
     (∀ r ∈ routes, (r.matcher path).isSome = true →
        methodAllowed r.methods method = false) →
      ∃ allowed, dispatchOutcome routes path method = .methodNotAllowed allowed ∧
        ∀ m, m ∈ allowed ↔
          ∃ r ∈ routes, (r.matcher path).isSome = true ∧ m ∈ r.methods) ∧
    (routes ≠ [] → (∀ r ∈ routes, r.matcher path = none) →
      dispatchOutcome routes path method = .notFound) := by
  constructor
  · rintro ⟨⟨r0, hr0, hr0some⟩, hall⟩
    have hscan := scanRoutes_unmatched path method routes hall []
    have hne : routes.isEmpty = false := by
      cases routes with
      | nil => simp at hr0
      | cons a l => simp
    have hm0 : ∃ m0, m0 ∈ r0.methods := by
      have hma := hall r0 hr0 hr0some
      cases hme : r0.methods with
      | nil => rw [hme] at hma; simp [methodAllowed] at hma
      | cons m ms => exact ⟨m, List.mem_cons_self _ _⟩
    have hnonempty : (pathMethods routes path).isEmpty = false := by
      obtain ⟨m0, hm0⟩ := hm0
      have hmem : m0 ∈ pathMethods routes path :=
        (mem_pathMethods routes path m0).2 ⟨r0, hr0, hr0some, hm0⟩
      cases hp : pathMethods routes path with
      | nil => rw [hp] at hmem; simp at hmem
      | cons a l => simp
    refine ⟨pathMethods routes path, ?_, fun m => mem_pathMethods routes path m⟩
    rw [List.nil_append] at hscan
    simp [dispatchOutcome, hne, hscan, hnonempty]
  · intro hnil hnone
    have hall : ∀ r ∈ routes, (r.matcher path).isSome = true →
        methodAllowed r.methods method = false := by
      intro r hr hs
      rw [hnone r hr] at hs
      exact absurd hs (by simp)
    have hscan := scanRoutes_unmatched path method routes hall []
    have hpm : pathMethods routes path = [] := by
      rcases hp : pathMethods routes path with _ | ⟨m, ms⟩
      · rfl
      · have hmem : m ∈ pathMethods routes path := by rw [hp]; exact List.mem_cons_self _ _
        obtain ⟨r, hr, hs, _⟩ := (mem_pathMethods routes path m).1 hmem
        rw [hnone r hr] at hs
        exact absurd hs (by simp)
    have hne : routes.isEmpty = false := by
      cases routes with
      | nil => exact absurd rfl hnil
      | cons a l => simp
    rw [List.nil_append, hpm] at hscan
    simp [dispatchOutcome, hne, hscan]

/-- Claim C3, amended, witness: two overlapping routes on `/a` (GET and
GET/POST) with a PUT request yield a 405 whose allowed set holds GET and
POST; a single route on `/z` with request path `/q` yields 404. -/
theorem method_not_allowed_union_witness :
    (∃ allowed, dispatchOutcome [fixFirst, fixSecond] "/a" "PUT" = .methodNotAllowed allowed ∧
      "GET" ∈ allowed ∧ "POST" ∈ allowed) ∧
    dispatchOutcome [fixNoMatch] "/q" "GET" = .notFound := by
  constructor
  · have h := (method_not_allowed_union [fixFirst, fixSecond] "/a" "PUT").1
      ⟨⟨fixFirst, by simp, by decide⟩,
       by intro r hr; simp at hr; rcases hr with h | h <;> subst h <;> decide⟩
    obtain ⟨allowed, heq, hiff⟩ := h
    refine ⟨allowed, heq, ?_, ?_⟩
    · exact (hiff "GET").2 ⟨fixFirst, by simp, by decide, by decide⟩
    · exact (hiff "POST").2 ⟨fixSecond, by simp, by decide, by decide⟩
  · exact (method_not_allowed_union [fixNoMatch] "/q" "GET").2 (by simp)
      (by intro r hr; simp at hr; subst hr; decide)

/-! ## Claim C2 -/

/-- Claim C2, counterexample: the guarantee fails as stated.  With a
configured custom exception handler that successfully returns a bare
string, `_process_exception` passes the value through unvalidated and the
hand-off at line 399 — outside the `try` — raises a `TypeError` that
escapes `handle_request`: no response reaches the transport.  Likewise a
middleware chain returning an awaitable non-Response passes the
`(Response, Awaitable)` guard and blows up at the same hand-off. -/
theorem exactly_one_response_counterexample :
    handleRequestFinal badCustomApp "/x" "GET"
      = .error (.otherExc "TypeError" "object is not callable") ∧
    handleRequestFinal awaitableApp "/x" "GET"
      = .error (.otherExc "TypeError" "object is not callable") ∧
    ∀ r : Resp, handleRequestFinal badCustomApp "/x" "GET" ≠ .ok r := by
  refine ⟨rfl, rfl, ?_⟩
  intro r hcon
  have h1 : handleRequestFinal badCustomApp "/x" "GET"
      = .error (.otherExc "TypeError" "object is not callable") := rfl
  rw [h1] at hcon
  exact Except.noConfusion hcon

/-- When the configured custom exception handler (if any) only returns
`Response` objects, `_process_exception` always produces a `Response`:
the taxonomy and debug paths build Responses, custom-handler failures
become a literal 500, and the outer catch builds the fatal 500. -/
theorem processException_resp (app : AppCfg) (e : PyExc)
    (ha : ∀ h, app.customExcHandler = some h →
      ∀ e2 v, h e2 = .ok v → isRespOut v = true) :
    ∃ r, processException app e = .resp r := by
  have hbody : ∀ v, processExceptionBody app e = .ok v → isRespOut v = true := by
    intro v hv
    unfold processExceptionBody at hv
    cases e with
    | dictExc code =>
      dsimp only at hv
      cases hev : errorValidator app code with
      | error err => rw [hev] at hv; exact Except.noConfusion hv
      | ok r =>
        rw [hev] at hv
        dsimp only at hv
        rw [Except.ok.injEq] at hv
        rw [← hv]
        rfl
    | otherExc k m =>
      dsimp only at hv
      cases hd : app.debug with
      | true =>
        rw [hd] at hv
        rw [if_pos (rfl : (true : Bool) = true)] at hv
        cases hdh : app.debugExcHandler (.otherExc k m) with
        | error err =>
          rw [hdh] at hv
          dsimp only at hv
          rw [Except.ok.injEq] at hv
          rw [← hv]
          rfl
        | ok r =>
          rw [hdh] at hv
          dsimp only at hv
          rw [Except.ok.injEq] at hv
          rw [← hv]
          rfl
      | false =>
        rw [hd] at hv
        rw [if_neg (by simp)] at hv
        cases hch : app.customExcHandler with
        | none =>
          rw [hch] at hv
          dsimp only at hv
          cases hev : errorValidator app 500 with
          | error err => rw [hev] at hv; exact Except.noConfusion hv
          | ok r =>
            rw [hev] at hv
            dsimp only at hv
            rw [Except.ok.injEq] at hv
            rw [← hv]
            rfl
        | some h2 =>
          rw [hch] at hv
          dsimp only at hv
          cases hcall : h2 (.otherExc k m) with
          | error err =>
            rw [hcall] at hv
            dsimp only at hv
            rw [Except.ok.injEq] at hv
            rw [← hv]
            rfl
          | ok v0 =>
            rw [hcall] at hv
            dsimp only at hv
            rw [Except.ok.injEq] at hv
            rw [← hv]
            exact ha h2 hch (.otherExc k m) v0 hcall
  unfold processException
  cases hb2 : processExceptionBody app e with
  | error err => exact ⟨_, rfl⟩
  | ok v =>
    have hrv := hbody v hb2
    cases v with
    | resp r => exact ⟨r, rfl⟩
    | awaitable d => exact absurd hrv (by simp [isRespOut])
    | raw d => exact absurd hrv (by simp [isRespOut])

/-- When the middleware chain never produces a bare awaitable, the `try`
body can only succeed with a `Response` value: the `isinstance` guard
raises on everything else. -/
theorem handleRequestTry_ok_resp (app : AppCfg) (path method : String) (pr : PROut)
    (hb : ∀ x y, app.middlewares x = .ok y → isAwaitableOut y = false)
    (h : handleRequestTry app path method = .ok pr) : ∃ r, pr = .resp r := by
  unfold handleRequestTry at h
  cases h0 : routeSection app path method with
  | error e => rw [h0] at h; exact Except.noConfusion h
  | ok pr1 =>
    rw [h0] at h
    dsimp only at h
    cases h1 : app.respTransformers pr1 with
    | error e => rw [h1] at h; exact Except.noConfusion h
    | ok pr2 =>
      rw [h1] at h
      dsimp only at h
      cases h2 : app.middlewares pr2 with
      | error e => rw [h2] at h; exact Except.noConfusion h
      | ok pr3 =>
        rw [h2] at h
        dsimp only at h
        cases pr3 with
        | resp r =>
          cases h3 : app.afterStage with
          | error e => rw [h3] at h; exact Except.noConfusion h
          | ok u =>
            rw [h3] at h
            dsimp only at h
            rw [Except.ok.injEq] at h
            exact ⟨r, h.symm⟩
        | awaitable d =>
          exact absurd (hb pr2 (.awaitable d) h2) (by simp [isAwaitableOut])
        | raw d => exact Except.noConfusion h

/-- Claim C2, amended: provided the configured custom exception handler
(if any) returns only `Response` objects and the middleware chain never
yields a bare awaitable, the dispatcher hands exactly one response to the
transport sink — any exception raised anywhere in the request flow (route
match, stage handlers, handler invocation, normalization, middleware) is
caught at the top of `handle_request` and converted by
`_process_exception` into a response, and no exception reaches the
transport.  Without those provisos the hand-off at line 399 (outside the
`try`) raises a `TypeError` that escapes `handle_request`. -/
theorem dispatch_exactly_one_response (app : AppCfg) (path method : String)
    (ha : ∀ h, app.customExcHandler = some h →
      ∀ e v, h e = .ok v → isRespOut v = true)
    (hb : ∀ x y, app.middlewares x = .ok y → isAwaitableOut y = false) :
    ∃ r : Resp, handleRequestFinal app path method = .ok r := by
  cases ht : handleRequestTry app path method with
  | error e =>
    obtain ⟨r, hr⟩ := processException_resp app e ha
    exact ⟨r, by simp [handleRequestFinal, ht, hr]⟩
  | ok pr =>
    obtain ⟨r, hr⟩ := handleRequestTry_ok_resp app path method pr hb ht
    subst hr
    exact ⟨r, by simp [handleRequestFinal, ht]⟩

/-- Claim C2, amended, witness: a concrete well-typed configuration (no
custom exception handler, Response-producing middleware) hands exactly
one response to the transport. -/
theorem dispatch_exactly_one_response_witness :
    ∃ r : Resp, handleRequestFinal wellTypedApp "/x" "GET" = .ok r := by
  apply dispatch_exactly_one_response
  · intro h hcon e v hv
    exact Option.noConfusion hcon
  · intro x y hxy
    have h2 : Except.ok (PROut.resp {}) = Except.ok y := hxy
    rw [Except.ok.injEq] at h2
    rw [← h2]
    rfl

end Bermoid
